import Mathlib

/-!
Shallow embedding of the Ekubo Market Watcher pool-discovery engine
(src/agent.ts, src/config.ts).

The TypeScript program is an on-demand scanner for `PoolInitialized`
events: `getLatestPools` validates a minutes window, fetches the chain
head, walks the chain backward in fixed-size chunks fetching events per
chunk, resolves block timestamps and token symbols through caches, and
filters the accumulated records by a live cutoff.  The RPC layer
(starknet.js provider) is modelled as an environment of oracles; the
four process-global JS `Map`s are modelled as association lists threaded
through the functions; RPC calls are counted in an explicit tally so
that claims about "zero RPC calls" are statable.
-/

namespace EkuboWatcher

/-- Association-list model of a JavaScript `Map`: lookup returns the value
stored at the first matching key (keys are unique by construction). -/
def mapGet [DecidableEq α] : List (α × β) → α → Option β
  | [], _ => none
  | (k', v) :: rest, k => if k' = k then some v else mapGet rest k

/-- Association-list model of `Map.prototype.set`: an existing key keeps
its insertion position and gets the new value; a new key is appended,
matching JS `Map` insertion-order semantics. -/
def mapSet [DecidableEq α] : List (α × β) → α → β → List (α × β)
  | [], k, v => [(k, v)]
  | (k', v') :: rest, k, v =>
    if k' = k then (k, v) :: rest else (k', v') :: mapSet rest k v

/-- Model of `Map.prototype.values()` / `Array.from(map.values())`. -/
def mapValues (m : List (α × β)) : List β := m.map (·.2)

/-- Model of `[...new Set(xs)]`: deduplicate keeping first occurrences in
order (agent.ts:245). -/
def dedup [DecidableEq α] (seen : List α) : List α → List α
  | [] => []
  | x :: xs => if x ∈ seen then dedup seen xs else x :: dedup (x :: seen) xs

/-- Model of the JS idiom `s || d` on strings: the empty string is the
only falsy string, so it is replaced by the default. -/
def orDefStr (s d : String) : String := if s = "" then d else s

/-- Structural model of `String.take` (JS `slice(0, n)`), written over
the character list so that it evaluates by kernel reduction. -/
def takeStr (s : String) (n : Nat) : String := ⟨s.data.take n⟩

/-- Structural model of `String.drop` (JS `slice(n)`), written over the
character list so that it evaluates by kernel reduction. -/
def dropStr (s : String) (n : Nat) : String := ⟨s.data.drop n⟩

/-- Structural model of `String.startsWith`. -/
def startsWithStr (s p : String) : Bool := p.data.isPrefixOf s.data

/-- Structural model of `String.toLower` as applied by the address
normalization. -/
def lowerStr (s : String) : String := ⟨s.data.map Char.toLower⟩

/-- Model of the fallback `tokenAddress.slice(0, 6) + "..." +
tokenAddress.slice(-4)` (agent.ts:218).  For strings shorter than the
slice bounds, take/drop agree with JS `slice`. -/
def truncateAddr (s : String) : String :=
  takeStr s 6 ++ "..." ++ dropStr s (s.length - 4)

/-- Model of the address normalization in `getTokenSymbol`
(agent.ts:95-109): lowercase, ensure a `0x` prefix, and left-pad the hex
body with `0` to 64 hex digits (`padStart(64, '0')`). -/
def normalizeAddress (tokenAddress : String) : String :=
  let a := lowerStr tokenAddress
  let a := if startsWithStr a "0x" then a else "0x" ++ a
  let hexPart := dropStr a 2
  if hexPart.length < 64 then
    "0x" ++ String.mk (List.replicate (64 - hexPart.length) '0') ++ hexPart
  else a

/-- Numeric value of a decimal digit character, `none` otherwise. -/
def digitVal (c : Char) : Option Nat :=
  if '0' ≤ c ∧ c ≤ '9' then some (c.toNat - '0'.toNat) else none

/-- Numeric value of a hexadecimal digit character, `none` otherwise. -/
def hexDigitVal (c : Char) : Option Nat :=
  if '0' ≤ c ∧ c ≤ '9' then some (c.toNat - '0'.toNat)
  else if 'a' ≤ c ∧ c ≤ 'f' then some (c.toNat - 'a'.toNat + 10)
  else if 'A' ≤ c ∧ c ≤ 'F' then some (c.toNat - 'A'.toNat + 10)
  else none

/-- Parse a non-empty all-decimal-digit character list as a natural. -/
def parseDecNat (cs : List Char) : Option Nat :=
  cs.foldl
    (fun acc c =>
      match acc, digitVal c with
      | some n, some d => some (n * 10 + d)
      | _, _ => none)
    (if cs.isEmpty then none else some 0)

/-- Parse a non-empty all-hex-digit character list as a natural. -/
def parseHexNat (cs : List Char) : Option Nat :=
  cs.foldl
    (fun acc c =>
      match acc, hexDigitVal c with
      | some n, some d => some (n * 16 + d)
      | _, _ => none)
    (if cs.isEmpty then none else some 0)

/-- Model of the JavaScript `Number(...)` conversion as applied to the
well-formed felt strings delivered by the RPC layer (`0x`-prefixed hex or
plain decimal, agent.ts:325-329).  Malformed strings, which JS maps to
NaN, are outside every claim's scope and are mapped to 0 here. -/
def jsNumber (s : String) : Int :=
  if startsWithStr s "0x" ∨ startsWithStr s "0X" then
    ((parseHexNat (dropStr s 2).data).getD 0 : Int)
  else ((parseDecNat s.data).getD 0 : Int)

/-- Split a character list at every occurrence of the separator, like
`String.splitOn` with a one-character separator. -/
def splitOnChar (c : Char) : List Char → List (List Char)
  | [] => [[]]
  | x :: xs =>
    let r := splitOnChar c xs
    if x = c then [] :: r
    else
      match r with
      | [] => [[x]]
      | seg :: rest => (x :: seg) :: rest

/-- An exact scaled decimal `num / 10 ^ pow`: the mathematical value of
a decimal literal, before any floating-point rounding.  The handler's
arithmetic on it is modelled separately in IEEE binary64 (see
`decToDouble` and friends below), since the source computes with JS
doubles, which do not agree with exact decimal arithmetic. -/
structure Dec where
  num : Int
  pow : Nat
deriving DecidableEq, Repr

/-- The rational value of a scaled decimal. -/
def Dec.toRat (d : Dec) : ℚ := (d.num : ℚ) / ((10 ^ d.pow : ℕ) : ℚ)

/-- Exact ceiling of a scaled decimal via integer floor division:
`⌈n / 10^p⌉ = -((-n) / 10^p)`.  `ceilDec_eq_ceil` below proves it equal
to the mathematical ceiling of the represented value; it is used to
exhibit where the program's binary64 computation departs from the
exact-decimal reading. -/
def ceilDec (d : Dec) : Int := -((-d.num) / ((10 ^ d.pow : ℕ) : ℤ))

/-- Model of JS `parseFloat` restricted to full decimal literals
(optional sign, integer part, optional fraction); anything else — which
JS would parse as NaN or by prefix — yields `none`. -/
def parseFloatDec (s : String) : Option Dec :=
  let (sign, body) : Int × String :=
    if startsWithStr s "-" then (-1, dropStr s 1) else (1, s)
  match splitOnChar '.' body.data with
  | [intPart] => (parseDecNat intPart).map (fun n => ⟨sign * n, 0⟩)
  | [intPart, fracPart] =>
    match parseDecNat intPart, parseDecNat fracPart with
    | some n, some f =>
      some ⟨sign * ((n : Int) * 10 ^ fracPart.length + f), fracPart.length⟩
    | _, _ => none
  | _ => none

/-- Fuel-bounded base-2 logarithm (floor), written with structural fuel
so that it evaluates by kernel reduction; fuel 400 covers every integer
below `2 ^ 400`, far beyond anything the 24-character hours schema
admits. -/
def log2F : Nat → Nat → Nat
  | 0, _ => 0
  | fuel + 1, n => if 2 ≤ n then log2F fuel (n / 2) + 1 else 0

/-- Round-to-nearest division with ties to even quotient — the IEEE-754
default rounding applied to an exact quotient `a / b`. -/
def roundDivNat (a b : Nat) : Nat :=
  let q := a / b
  let r := a % b
  if b < 2 * r then q + 1
  else if 2 * r < b then q
  else if q % 2 = 0 then q else q + 1

/-- Bit length of a natural number. -/
def natBitsF (n : Nat) : Nat := if n = 0 then 0 else log2F 400 n + 1

/-- Round an exact dyadic magnitude `m * 2 ^ k` to 53 significant bits
(round to nearest, ties to even) — the binary64 significand width. -/
def round53 (m : Nat) (k : Int) : Nat × Int :=
  let b := natBitsF m
  if b ≤ 53 then (m, k)
  else
    let shift := b - 53
    (roundDivNat m (2 ^ shift), k + (shift : Int))

/-- Correctly round the decimal magnitude `n / 10 ^ p` to the nearest
binary64 value `m * 2 ^ k` (ties to even): the semantics of JS
`parseFloat` on a decimal literal.  The scale `2 ^ 200` locates the
binary exponent exactly for every value the hours schema admits
(magnitudes between `10 ^ -23` and `10 ^ 24`); subnormals and overflow
to Infinity lie far outside that range and are not modelled. -/
def decMagToDouble (n p : Nat) : Nat × Int :=
  let S : Nat := 200
  let e : Int := (log2F 400 ((n * 2 ^ S) / 10 ^ p) : Int) - (S : Int)
  let k := e - 52
  let m :=
    if 0 ≤ k then roundDivNat n (10 ^ p * 2 ^ k.toNat)
    else roundDivNat (n * 2 ^ (-k).toNat) (10 ^ p)
  (m, k)

/-- A binary64 (double) value carried exactly, as `man * 2 ^ exp`. -/
structure Dyadic where
  man : Int
  exp : Int
deriving DecidableEq, Repr

/-- The exact rational value of a double. -/
def Dyadic.toRat (x : Dyadic) : ℚ :=
  if 0 ≤ x.exp then ((x.man * 2 ^ x.exp.toNat : Int) : ℚ)
  else (x.man : ℚ) / ((2 ^ (-x.exp).toNat : ℕ) : ℚ)

/-- JS `parseFloat` value of a parsed decimal: the decimal correctly
rounded to the nearest double (validated against reference binary64
results, e.g. 1.1666666666666667 ↦ 5254199565265579·2⁻⁵² and
0.01 ↦ 5764607523034235·2⁻⁵⁹). -/
def decToDouble (d : Dec) : Dyadic :=
  if d.num < 0 then
    let r := decMagToDouble (-d.num).toNat d.pow
    ⟨-(r.1 : Int), r.2⟩
  else
    let r := decMagToDouble d.num.toNat d.pow
    ⟨(r.1 : Int), r.2⟩

/-- Binary64 multiplication by the exact constant 60: the exact product
re-rounded to 53 bits, round to nearest, ties to even — the semantics
of the JS expression `hours * 60`. -/
def doubleMul60 (x : Dyadic) : Dyadic :=
  if x.man < 0 then
    let r := round53 ((-x.man).toNat * 60) x.exp
    ⟨-(r.1 : Int), r.2⟩
  else
    let r := round53 (x.man.toNat * 60) x.exp
    ⟨(r.1 : Int), r.2⟩

/-- `Math.ceil` on a double, as an integer: exact for every result of
magnitude below `2 ^ 53`, which covers all schema-admissible inputs.
`ceilDyadic_eq_ceil` below certifies it against the mathematical
ceiling. -/
def ceilDyadic (x : Dyadic) : Int :=
  if 0 ≤ x.exp then x.man * 2 ^ x.exp.toNat
  else -((-x.man) / (2 ^ (-x.exp).toNat : Int))

/-- The `list-pools-by-hours` minutes computation of agent.ts:561-562:
`Math.ceil(parseFloat(input.hours) * 60)` in IEEE binary64
arithmetic. -/
def jsHoursMinutes (d : Dec) : Int := ceilDyadic (doubleMul60 (decToDouble d))

/-- IEEE-754 value lattice needed to model the JS comparisons in the
window validation (agent.ts:346): NaN compares false against everything. -/
inductive JsNum where
  | nan
  | posInf
  | negInf
  | val (q : ℚ)
deriving DecidableEq

/-- Strict less-than with JS semantics: any comparison with NaN is false. -/
def jsLt : JsNum → JsNum → Bool
  | .nan, _ => false
  | _, .nan => false
  | .posInf, _ => false
  | .negInf, .negInf => false
  | .negInf, _ => true
  | .val _, .posInf => true
  | .val _, .negInf => false
  | .val a, .val b => decide (a < b)

/-- IEEE model of the guard `minutes < 1 || minutes >
config.network.maxLookbackMinutes` at agent.ts:346, the only check
between the entrypoint's `parseInt`/`Math.ceil` result and the first RPC
call `provider.getBlockNumber()` at agent.ts:351. -/
def minutesWindowRejected (maxLookback : ℚ) (m : JsNum) : Bool :=
  jsLt m (.val 1) || jsLt (.val maxLookback) m

/-- Membership of a JS number in the closed interval `[1, maxLookback]`;
NaN and the infinities are outside. -/
def jsInClaimedRange (maxLookback : ℚ) (m : JsNum) : Bool :=
  match m with
  | .val q => decide (1 ≤ q ∧ q ≤ maxLookback)
  | _ => false

/-- The `PoolInitializedEvent` record built by `extractPoolEventData`
(agent.ts:51-67, flattened: `pool_key` fields are inlined). -/
structure Pool where
  token0 : String
  token1 : String
  fee : Int
  tick_spacing : Int
  extension : String
  initial_tick : Int
  sqrt_ratio : String
  block_number : Int
  transaction_hash : String
  timestamp : Int
  description : String
  token0_symbol : String
  token1_symbol : String
deriving DecidableEq, Repr

/-- One raw log entry as returned by `provider.getEvents`
(agent.ts:236-242): an ordered list of scalar field strings plus the
emitting block number and transaction hash. -/
structure RawEvent where
  data : List String
  block_number : Int
  transaction_hash : String
deriving DecidableEq, Repr

/-- Count of RPC calls issued, by kind: `headBlock` =
`provider.getBlockNumber`, `getBlock` = `provider.getBlock`, `getEvents`
= `provider.getEvents`, `contractCall` = the dynamic symbol lookup
(`getClassAt` + `contract.call`, counted once per attempt). -/
structure Tally where
  headBlock : Nat
  getBlock : Nat
  getEvents : Nat
  contractCall : Nat
deriving DecidableEq, Repr

/-- The all-zero tally: no RPC call issued. -/
def Tally.zero : Tally := ⟨0, 0, 0, 0⟩

/-- The four process-global mutable `Map`s (agent.ts:70-75). -/
structure AgentState where
  poolCache : List (String × Pool)
  lastCacheUpdate : List (String × Int)
  blockTimestampCache : List (Int × Int)
  tokenSymbolCache : List (String × String)
deriving DecidableEq, Repr

/-- Configuration values consumed by the engine.  `ttlMs` and
`maxLookbackMinutes` are real fields of src/config.ts.  `chunkSize` is
a counterfactual: agent.ts:353 reads `config.network.blockChunkSize`, a
field that does not exist in src/config.ts (the network section has
only `blocksPerMinute` and `maxLookbackMinutes`), so in the shipped
program the value is `undefined` and the window arithmetic is
NaN-poisoned — modelled faithfully by `scanStepJs`/`scanLoopJs` below.
The integer field here states what the loop does under the evidently
intended integer chunk size; the cache, filter and validation claims
proved about `getLatestPools` do not depend on the window arithmetic. -/
structure Config where
  ttlMs : Int
  chunkSize : Int
  maxLookbackMinutes : Int
deriving DecidableEq, Repr

/-- Environment of one discovery call: the wall clock sampled by
`Date.now()` (the two samples at agent.ts:352 and agent.ts:358 are
modelled as one value; no claim depends on the sub-call clock drift
between them) and the chain-RPC oracles.  `getBlockTs b = none` models a
`provider.getBlock` throw or a block object without a timestamp;
`getEvents = none` models a `provider.getEvents` throw; `contractSymbol
a = none` models the whole dynamic symbol path (class fetch, `symbol`
call, decode) throwing. -/
structure ScanEnv where
  nowMs : Int
  headBlock : Int
  getBlockTs : Int → Option Int
  getEvents : Int → Int → Option (List RawEvent)
  contractSymbol : String → Option String

/-- Model of `getTokenSymbol` (agent.ts:87-222): symbol-cache lookup,
then normalization and static-table lookup (the static table
`starknet-token-addresses.ts` is not under src/, so it is an abstract
association list here — only its lookup interface is used), then the
dynamic contract path, whose decode logic is folded into the
`contractSym` oracle; a throwing dynamic path falls back to the
truncated-address placeholder, which is cached.  The function is total:
it always returns a string, matching the code's catch-all. -/
def getTokenSymbol (table : List (String × String))
    (contractSym : String → Option String)
    (cache : List (String × String)) (tally : Tally) (tokenAddress : String) :
    String × List (String × String) × Tally :=
  match mapGet cache tokenAddress with
  | some s => (s, cache, tally)
  | none =>
    let normalizedAddress := normalizeAddress tokenAddress
    match mapGet table normalizedAddress with
    | some s => (s, mapSet cache tokenAddress s, tally)
    | none =>
      let tally' := { tally with contractCall := tally.contractCall + 1 }
      match contractSym tokenAddress with
      | some symbol => (symbol, mapSet cache tokenAddress symbol, tally')
      | none =>
        let fallback := truncateAddr tokenAddress
        (fallback, mapSet cache tokenAddress fallback, tally')

/-- Model of `extractPoolEventData` (agent.ts:301-342): fewer than 7
data fields yields no record (the code logs and returns `null`);
otherwise the positional field mapping is applied, the two token symbols
are resolved (sequentialized model of the `Promise.all` pair), and a
missing block timestamp becomes the `0` sentinel (`blockTimestamp || 0`). -/
def extractPoolEventData (table : List (String × String)) (env : ScanEnv)
    (st : AgentState) (tally : Tally) (ev : RawEvent)
    (blockTimestamp : Option Int) : Option Pool × AgentState × Tally :=
  if ev.data.length < 7 then (none, st, tally)
  else
    let token0Address := orDefStr (ev.data.getD 0 "") "0x"
    let token1Address := orDefStr (ev.data.getD 1 "") "0x"
    let r0 := getTokenSymbol table env.contractSymbol st.tokenSymbolCache tally token0Address
    let r1 := getTokenSymbol table env.contractSymbol r0.2.1 r0.2.2 token1Address
    let pool : Pool :=
      { token0 := token0Address
        token1 := token1Address
        fee := jsNumber (orDefStr (ev.data.getD 2 "") "0")
        tick_spacing := jsNumber (orDefStr (ev.data.getD 3 "") "0")
        extension := orDefStr (ev.data.getD 4 "") "0x"
        initial_tick := jsNumber (orDefStr (ev.data.getD 5 "") "0")
        sqrt_ratio := orDefStr (ev.data.getD 6 "") "0"
        block_number := ev.block_number
        transaction_hash := ev.transaction_hash
        timestamp := blockTimestamp.getD 0
        description := r0.1 ++ "-" ++ r1.1
        token0_symbol := r0.1
        token1_symbol := r1.1 }
    (some pool, { st with tokenSymbolCache := r1.2.1 }, r1.2.2)

/-- First pass of the timestamp batch (agent.ts:252-258): split the
unique block numbers into already-cached timestamps and the uncached
remainder, preserving iteration order. -/
def splitCachedBlocks (cache : List (Int × Int)) (blocks : List Int) :
    List (Int × Int) × List Int :=
  blocks.foldl
    (fun acc b =>
      match mapGet cache b with
      | some t => (mapSet acc.1 b t, acc.2)
      | none => (acc.1, acc.2 ++ [b]))
    ([], [])

/-- Second pass of the timestamp batch (agent.ts:261-280): one
`provider.getBlock` per uncached block; only a truthy timestamp (nonzero,
present) is stored in the per-batch map and the global timestamp cache;
a throw or falsy timestamp leaves the block unresolved. -/
def fetchUncachedTimestamps (env : ScanEnv)
    (start : List (Int × Int) × AgentState × Tally) (uncached : List Int) :
    List (Int × Int) × AgentState × Tally :=
  uncached.foldl
    (fun acc b =>
      let tally := { acc.2.2 with getBlock := acc.2.2.getBlock + 1 }
      match env.getBlockTs b with
      | some t =>
        if t ≠ 0 then
          (mapSet acc.1 b t,
           { acc.2.1 with
              blockTimestampCache := mapSet acc.2.1.blockTimestampCache b t },
           tally)
        else (acc.1, acc.2.1, tally)
      | none => (acc.1, acc.2.1, tally))
    start

/-- Per-event loop of `fetchPoolInitializedEvents` (agent.ts:282-287):
extract each event with its resolved timestamp; a `null` extraction is
skipped and the loop continues with the remaining events. -/
def processEvents (table : List (String × String)) (env : ScanEnv)
    (bts : List (Int × Int)) :
    List RawEvent → AgentState → Tally → List Pool →
    List Pool × AgentState × Tally
  | [], st, tally, acc => (acc, st, tally)
  | ev :: rest, st, tally, acc =>
    match extractPoolEventData table env st tally ev (mapGet bts ev.block_number) with
    | (some p, st', tally') => processEvents table env bts rest st' tally' (acc ++ [p])
    | (none, st', tally') => processEvents table env bts rest st' tally' acc

/-- Model of `fetchPoolInitializedEvents` (agent.ts:226-298): one
`getEvents` call (counted even when it throws; a throw yields zero
records for the window and leaves all caches untouched), then the
two-pass timestamp batch, then per-event extraction. -/
def fetchPoolInitializedEvents (table : List (String × String)) (env : ScanEnv)
    (st : AgentState) (tally : Tally) (fromBlock toBlock : Int) :
    List Pool × AgentState × Tally :=
  let tally := { tally with getEvents := tally.getEvents + 1 }
  match env.getEvents fromBlock toBlock with
  | none => ([], st, tally)
  | some events =>
    let uniqueBlockNumbers := dedup [] (events.map (·.block_number))
    let split := splitCachedBlocks st.blockTimestampCache uniqueBlockNumbers
    let batch := fetchUncachedTimestamps env (split.1, st, tally) split.2
    processEvents table env batch.1 events batch.2.1 batch.2.2 []

/-- State of the backward scan loop (agent.ts:369-414), instrumented
with the list of windows whose events were actually fetched (`fetched`)
and with the cause of a stop (`cutoffStop` = the step-(b) break at
agent.ts:381-387, as opposed to the genesis check at agent.ts:408). -/
structure ScanState where
  fromBlock : Int
  toBlock : Int
  pools : List Pool
  fetched : List (Int × Int)
  st : AgentState
  tally : Tally
  stopped : Bool
  cutoffStop : Bool
deriving Repr

/-- One iteration of the `while (true)` loop (agent.ts:377-414) under
the counterfactual integer chunk size (see `Config`; the shipped
`undefined` chunk size is modelled by `scanStepJs`): fetch the
`to`-boundary timestamp (one `getBlock` call, counted even on a throw);
if it resolves strictly below the cutoff, stop; otherwise fetch the
window's events, advance `to = from - 1`, `from = max(0, from -
chunkSize)`, and stop only when `from == 0 && to == 0`. -/
def scanStep (cfg : Config) (table : List (String × String)) (env : ScanEnv)
    (cutoff : Int) (s : ScanState) : ScanState :=
  let tally1 := { s.tally with getBlock := s.tally.getBlock + 1 }
  let stopNow : Bool :=
    match env.getBlockTs s.toBlock with
    | some t => decide (t < cutoff)
    | none => false
  if stopNow then { s with tally := tally1, stopped := true, cutoffStop := true }
  else
    let r := fetchPoolInitializedEvents table env s.st tally1 s.fromBlock s.toBlock
    let toBlock' := s.fromBlock - 1
    let fromBlock' := max 0 (s.fromBlock - cfg.chunkSize)
    { fromBlock := fromBlock'
      toBlock := toBlock'
      pools := s.pools ++ r.1
      fetched := s.fetched ++ [(s.fromBlock, s.toBlock)]
      st := r.2.1
      tally := r.2.2
      stopped := decide (fromBlock' = 0 ∧ toBlock' = 0)
      cutoffStop := s.cutoffStop }

/-- Fuel-bounded unfolding of the scan loop.  The fuel is external
instrumentation only: the source loop is `while (true)` and, as proved
below, need not terminate at all. -/
def scanLoop (cfg : Config) (table : List (String × String)) (env : ScanEnv)
    (cutoff : Int) : Nat → ScanState → ScanState
  | 0, s => s
  | Nat.succ n, s =>
    if s.stopped then s else scanLoop cfg table env cutoff n (scanStep cfg table env cutoff s)

/-- Lower boundary of the i-th backward window, per the initialization
`from = max(0, H - chunkSize)` (agent.ts:370) and the advance rule
`from = max(0, from - chunkSize)` (agent.ts:405). -/
def winFrom (c H : Int) : Nat → Int
  | 0 => max 0 (H - c)
  | n + 1 => max 0 (winFrom c H n - c)

/-- Upper boundary of the i-th backward window, per `to = currentBlock`
(agent.ts:371) and the advance rule `to = from - 1` (agent.ts:404). -/
def winTo (c H : Int) : Nat → Int
  | 0 => H
  | n + 1 => winFrom c H n - 1

/-- The cache key `` `${network}-${minutes}` `` (agent.ts:356). -/
def cacheKey (network : String) (minutes : Int) : String :=
  network ++ "-" ++ toString minutes

/-- The request-time cutoff `Math.floor(Date.now() / 1000) - minutes * 60`
(agent.ts:352). -/
def cutoffOf (env : ScanEnv) (minutes : Int) : Int :=
  env.nowMs / 1000 - minutes * 60

/-- The cache-hit test `poolCache.size > 0 && (now - lastUpdate) <
config.cache.ttlMs` (agent.ts:360), where `lastUpdate` defaults to 0
for an absent key (agent.ts:357). -/
def cacheHit (cfg : Config) (st : AgentState) (nowMs : Int) (key : String) : Bool :=
  !st.poolCache.isEmpty &&
    decide (nowMs - (mapGet st.lastCacheUpdate key).getD 0 < cfg.ttlMs)

/-- Initial loop state (agent.ts:370-371) under the counterfactual
integer chunk size, carrying the tally of the head-block fetch already
issued at agent.ts:351; the shipped initial state (`fromBlock` already
NaN) is `initScanStateJs`. -/
def initScanState (cfg : Config) (env : ScanEnv) (st : AgentState) : ScanState :=
  { fromBlock := max 0 (env.headBlock - cfg.chunkSize)
    toBlock := env.headBlock
    pools := []
    fetched := []
    st := st
    tally := { Tally.zero with headBlock := 1 }
    stopped := false
    cutoffStop := false }

/-- Result of one `getLatestPools` call: `pools = none` models the
`InvalidWindow` throw at agent.ts:346-348 (state untouched, nothing
fetched); otherwise the returned filtered records, the updated global
state and the RPC tally of the call. -/
structure DiscoverOut where
  pools : Option (List Pool)
  st : AgentState
  tally : Tally
deriving DecidableEq, Repr

/-- Model of `getLatestPools` (agent.ts:345-455).  Order is the
source's: the window validation throws first; the head-block fetch at
agent.ts:351 is issued unconditionally before the cache check; a cache
hit returns the global pool-cache values filtered by the live cutoff; a
miss runs the backward scan, filters by the live cutoff, and replaces
both the pool cache (keyed by transaction hash, with all scanned pools,
not only the filtered ones) and the entire last-update map
(agent.ts:441-448 clears both maps wholesale).  The scan uses the
counterfactual integer chunk size (see `Config`); the validation,
filter and cache properties proved below hold whatever the scan loop
returns, so they are unaffected by the shipped NaN window arithmetic. -/
def getLatestPools (cfg : Config) (table : List (String × String)) (env : ScanEnv)
    (st : AgentState) (minutes : Int) (network : String) (fuel : Nat) : DiscoverOut :=
  if minutes < 1 ∨ cfg.maxLookbackMinutes < minutes then
    { pools := none, st := st, tally := Tally.zero }
  else if cacheHit cfg st env.nowMs (cacheKey network minutes) then
    { pools := some ((mapValues st.poolCache).filter
        (fun p => cutoffOf env minutes ≤ p.timestamp))
      st := st
      tally := { Tally.zero with headBlock := 1 } }
  else
    let fin := scanLoop cfg table env (cutoffOf env minutes) fuel (initScanState cfg env st)
    { pools := some (fin.pools.filter (fun p => cutoffOf env minutes ≤ p.timestamp))
      st :=
        { fin.st with
           poolCache := fin.pools.foldl (fun m p => mapSet m p.transaction_hash p) []
           lastCacheUpdate := mapSet [] (cacheKey network minutes) env.nowMs }
      tally := fin.tally }

/-- Schema check of the `list-pools-by-hours` entrypoint input
(agent.ts:530): `z.string().min(1).max(24)` constrains the *length* of
the hours string to `[1, 24]` characters, not its numeric value. -/
def hoursSchemaOk (s : String) : Bool :=
  decide (1 ≤ s.length) && decide (s.length ≤ 24)

/-- Model of the `list-pools-by-hours` handler (agent.ts:559-594) on
inputs whose hours string parses to a finite decimal: `hours =
parseFloat(input.hours)` (the literal correctly rounded to a double),
`minutes = Math.ceil(hours * 60)` computed in IEEE binary64 arithmetic
(`jsHoursMinutes`), then the shared `getLatestPools` orchestrator; the
returned triple is the `timeframe.hours`, `timeframe.minutes`, and the
orchestrator output. -/
def listPoolsByHours (cfg : Config) (table : List (String × String))
    (env : ScanEnv) (st : AgentState) (fuel : Nat) (hoursStr : String)
    (network : String) : Option (Dec × Int × DiscoverOut) :=
  if hoursSchemaOk hoursStr then
    match parseFloatDec hoursStr with
    | some hours =>
      let minutes := jsHoursMinutes hours
      some (hours, minutes, getLatestPools cfg table env st minutes network fuel)
    | none => none
  else none

/-! ### Concrete fixtures used by witnesses and counterexamples -/

/-- Empty global state: all four maps empty, as at process start. -/
def emptyState : AgentState :=
  { poolCache := [], lastCacheUpdate := [], blockTimestampCache := [],
    tokenSymbolCache := [] }

/-- Configuration with the defaults of src/config.ts: TTL 60000 ms, max
lookback 1440 minutes; chunk size 50 blocks for compact fixtures. -/
def cfgX : Config := { ttlMs := 60000, chunkSize := 50, maxLookbackMinutes := 1440 }

/-- State whose symbol cache already knows the two fixture token
addresses, so fixture scans resolve symbols without the contract path. -/
def stX0 : AgentState :=
  { poolCache := [], lastCacheUpdate := [], blockTimestampCache := [],
    tokenSymbolCache := [("0xa", "A"), ("0xb", "B")] }

/-- A well-formed 7-field `PoolInitialized` log entry in block 95. -/
def evX : RawEvent :=
  { data := ["0xa", "0xb", "0x0", "0x0", "0x", "0x0", "0x0"],
    block_number := 95, transaction_hash := "0xh" }

/-- Environment of the first fixture call: head block 100, one event in
window [50, 100] at block 95 (timestamp 999500), boundary block 100 at
timestamp 999000, every older block at timestamp 10. -/
def envX1 : ScanEnv :=
  { nowMs := 1000000000
    headBlock := 100
    getBlockTs := fun b =>
      if b = 100 then some 999000 else if b = 95 then some 999500 else some 10
    getEvents := fun f t => if f = 50 ∧ t = 100 then some [evX] else some []
    contractSymbol := fun _ => none }

/-- State after the first fixture call: the scan found the block-95 pool
and cached it under key `mainnet-60` at time 1000000000. -/
def stAfterFirst : AgentState := (getLatestPools cfgX [] envX1 stX0 60 "mainnet" 9).st

/-- Environment of the second fixture call, one second later (well
within the 60000 ms TTL). -/
def envX2 : ScanEnv := { envX1 with nowMs := 1000001000 }

/-! ### Shared lemmas -/

/-- A member of a cutoff-filtered pool list is at or after the cutoff,
and cannot carry the 0 sentinel when the cutoff is positive. -/
theorem mem_filter_cutoff (l : List Pool) (cutoff : Int) (p : Pool)
    (hp : p ∈ l.filter (fun q => cutoff ≤ q.timestamp)) :
    cutoff ≤ p.timestamp ∧ (0 < cutoff → p.timestamp ≠ 0) := by
  have h := List.of_mem_filter hp
  simp only [decide_eq_true_eq] at h
  exact ⟨h, fun hc h0 => by omega⟩

/-! ### C1: returned records satisfy the live cutoff on both paths -/

/-- C1.  Every `PoolRecord` returned by `getLatestPools` — on the
cache-hit path as well as the fresh-scan path — satisfies `timestamp >=
now_seconds - minutes*60` with the cutoff computed from the request-time
clock, and a record with the unresolved-timestamp `0` sentinel is
excluded whenever the cutoff is positive (fail-closed). -/
theorem getLatestPools_returned_timestamp_ge_cutoff
    (cfg : Config) (table : List (String × String)) (env : ScanEnv)
    (st : AgentState) (minutes : Int) (network : String) (fuel : Nat)
    (res : List Pool) (st1 : AgentState) (tal : Tally) (p : Pool)
    (h : getLatestPools cfg table env st minutes network fuel = ⟨some res, st1, tal⟩)
    (hp : p ∈ res) :
    cutoffOf env minutes ≤ p.timestamp ∧
      (0 < cutoffOf env minutes → p.timestamp ≠ 0) := by
  unfold getLatestPools at h
  split at h
  · exact absurd h (by simp)
  · split at h
    · injection h with h1 h2 h3
      injection h1 with h1
      subst h1
      exact mem_filter_cutoff _ _ _ hp
    · injection h with h1 h2 h3
      injection h1 with h1
      subst h1
      exact mem_filter_cutoff _ _ _ hp

/-- The pool record the fixture scan extracts from `evX`. -/
def pX : Pool :=
  { token0 := "0xa", token1 := "0xb", fee := 0, tick_spacing := 0,
    extension := "0x", initial_tick := 0, sqrt_ratio := "0x0",
    block_number := 95, transaction_hash := "0xh", timestamp := 999500,
    description := "A-B", token0_symbol := "A", token1_symbol := "B" }

/-- C1 witness: a concrete cache-hit call returning exactly `pX`, whose
timestamp 999500 meets the cutoff 996401. -/
theorem getLatestPools_returned_timestamp_ge_cutoff_witness :
    cutoffOf envX2 60 ≤ pX.timestamp ∧ (0 < cutoffOf envX2 60 → pX.timestamp ≠ 0) :=
  getLatestPools_returned_timestamp_ge_cutoff cfgX [] envX2 stAfterFirst
    60 "mainnet" 9 [pX] stAfterFirst { Tally.zero with headBlock := 1 } pX
    (by decide) (by decide)

/-! ### C10: an empty scan result is never served from the cache -/

/-- C10.  The cache-hit branch requires a non-empty pool cache in
addition to TTL freshness.  A miss-path call whose scan found zero pools
leaves the pool cache empty, so every subsequent call — any key, any
clock — fails the cache-hit test and rescans. -/
theorem empty_scan_not_served_from_cache
    (cfg : Config) (table : List (String × String)) (env : ScanEnv)
    (st : AgentState) (minutes : Int) (network : String) (fuel : Nat)
    (res : List Pool) (st1 : AgentState) (tal : Tally)
    (h : getLatestPools cfg table env st minutes network fuel = ⟨some res, st1, tal⟩)
    (hmiss : cacheHit cfg st env.nowMs (cacheKey network minutes) = false)
    (hempty : (scanLoop cfg table env (cutoffOf env minutes) fuel
        (initScanState cfg env st)).pools = []) :
    st1.poolCache = [] ∧
      ∀ (nowMs' : Int) (key' : String), cacheHit cfg st1 nowMs' key' = false := by
  unfold getLatestPools at h
  split at h
  · exact absurd h (by simp)
  · split at h
    · rename_i hc
      rw [hmiss] at hc
      simp at hc
    · injection h with h1 h2 h3
      rw [hempty] at h2
      subst h2
      refine ⟨rfl, fun nowMs' key' => ?_⟩
      simp [cacheHit]

/-- Environment for the empty-scan fixture: the head-boundary timestamp
0 is below every positive cutoff, so the scan stops with zero pools. -/
def envW10 : ScanEnv :=
  { nowMs := 1000000000
    headBlock := 100
    getBlockTs := fun _ => some 0
    getEvents := fun _ _ => some []
    contractSymbol := fun _ => none }

/-- C10 witness: after a concrete call that scanned and found nothing,
the pool cache is empty and a later cache-hit test for the same key,
one second later and inside the TTL, still fails. -/
theorem empty_scan_not_served_from_cache_witness :
    (getLatestPools cfgX [] envW10 emptyState 60 "mainnet" 3).st.poolCache = [] ∧
    cacheHit cfgX (getLatestPools cfgX [] envW10 emptyState 60 "mainnet" 3).st
      1000001000 (cacheKey "mainnet" 60) = false := by
  have h := empty_scan_not_served_from_cache cfgX [] envW10 emptyState 60 "mainnet" 3
    [] (getLatestPools cfgX [] envW10 emptyState 60 "mainnet" 3).st ⟨1, 1, 0, 0⟩
    (by decide) (by decide) (by decide)
  exact ⟨h.1, h.2 1000001000 (cacheKey "mainnet" 60)⟩

/-! ### C3: window validation under IEEE comparison -/

/-- C3 counterexample: NaN (the result of `parseInt` on a non-numeric
minutes string, which the length-only entrypoint schema lets through)
lies outside `[1, 1440]` yet fails both IEEE comparisons of the guard at
agent.ts:346, so the call is not rejected and proceeds to the RPC at
agent.ts:351. -/
theorem minutesGate_nan_passes_validation :
    jsInClaimedRange 1440 JsNum.nan = false ∧
    minutesWindowRejected 1440 JsNum.nan = false := by decide

/-- C3 amended.  Every non-NaN minutes value outside `[1,
max_lookback_minutes]` is rejected by the guard, and for integer minutes
the rejected call returns the `InvalidWindow` throw with an untouched
state and a zero RPC tally — NaN alone passes the guard and reaches the
scanner. -/
theorem invalid_window_rejected_before_rpc
    (m : JsNum) (cfg : Config) (table : List (String × String)) (env : ScanEnv)
    (st : AgentState) (minutes : Int) (network : String) (fuel : Nat) :
    (m ≠ JsNum.nan → jsInClaimedRange 1440 m = false →
      minutesWindowRejected 1440 m = true) ∧
    ((minutes < 1 ∨ cfg.maxLookbackMinutes < minutes) →
      getLatestPools cfg table env st minutes network fuel = ⟨none, st, Tally.zero⟩) := by
  constructor
  · intro hnan hout
    cases m with
    | nan => exact absurd rfl hnan
    | posInf => rfl
    | negInf => rfl
    | val q =>
      simp only [jsInClaimedRange, decide_eq_false_iff_not, not_and_or, not_le] at hout
      simp only [minutesWindowRejected, jsLt, Bool.or_eq_true, decide_eq_true_eq]
      exact hout
  · intro hv
    unfold getLatestPools
    rw [if_pos hv]

/-- C3 witness: minutes 0 is rejected by the guard, and the concrete
call throws with a zero tally. -/
theorem invalid_window_rejected_before_rpc_witness :
    minutesWindowRejected 1440 (JsNum.val 0) = true ∧
    getLatestPools cfgX [] envX1 stX0 0 "mainnet" 3 = ⟨none, stX0, Tally.zero⟩ :=
  ⟨(invalid_window_rejected_before_rpc (JsNum.val 0) cfgX [] envX1 stX0 0 "mainnet" 3).1
      (by decide) (by decide),
   (invalid_window_rejected_before_rpc (JsNum.val 0) cfgX [] envX1 stX0 0 "mainnet" 3).2
      (Or.inl (by decide))⟩

/-! ### C4: repeated call within the TTL -/

/-- C4 counterexample: the second call for the same `(network, window)`
key within the TTL is served from the cache, yet its RPC tally is not
zero — the head-block fetch at agent.ts:351 runs unconditionally before
the cache check at agent.ts:360. -/
theorem cache_hit_second_call_issues_head_rpc :
    cacheHit cfgX stAfterFirst envX2.nowMs (cacheKey "mainnet" 60) = true ∧
    (getLatestPools cfgX [] envX2 stAfterFirst 60 "mainnet" 9).tally.headBlock = 1 := by
  decide

/-- C4 amended.  A call whose window is valid and whose cache-hit test
passes returns the cached pool records filtered by its own freshly
computed cutoff, leaves the state untouched, and issues exactly one RPC
call — the unconditional head-block fetch — with no block, event, or
contract fetch. -/
theorem cache_hit_serves_cached_filtered_with_single_head_rpc
    (cfg : Config) (table : List (String × String)) (env : ScanEnv)
    (st : AgentState) (minutes : Int) (network : String) (fuel : Nat)
    (hvalid : ¬(minutes < 1 ∨ cfg.maxLookbackMinutes < minutes))
    (hhit : cacheHit cfg st env.nowMs (cacheKey network minutes) = true) :
    getLatestPools cfg table env st minutes network fuel =
      ⟨some ((mapValues st.poolCache).filter
          (fun p => cutoffOf env minutes ≤ p.timestamp)),
       st, { Tally.zero with headBlock := 1 }⟩ := by
  unfold getLatestPools
  rw [if_neg hvalid, if_pos hhit]

/-- C4 witness: the concrete second fixture call is served from the
cache with exactly the head-block RPC. -/
theorem cache_hit_serves_cached_filtered_with_single_head_rpc_witness :
    getLatestPools cfgX [] envX2 stAfterFirst 60 "mainnet" 9 =
      ⟨some ((mapValues stAfterFirst.poolCache).filter
          (fun p => cutoffOf envX2 60 ≤ p.timestamp)),
       stAfterFirst, { Tally.zero with headBlock := 1 }⟩ :=
  cache_hit_serves_cached_filtered_with_single_head_rpc cfgX [] envX2 stAfterFirst
    60 "mainnet" 9 (by decide) (by decide)

/-! ### C8: a rescan is global, not per key -/

/-- State for the C8 fixture: key `mainnet-60` is stale (last refresh at
time 1), key `testnet-60` is fresh (last refresh 10 seconds before the
fixture clock), and the pool cache holds one record. -/
def stY0 : AgentState :=
  { poolCache := [("0xold", pX)]
    lastCacheUpdate := [("mainnet-60", 1), ("testnet-60", 999990000)]
    blockTimestampCache := []
    tokenSymbolCache := [] }

/-- C8 counterexample: a stale-triggered rescan for key `mainnet-60`
erases the fresh `testnet-60` entry — the code clears both cache maps
wholesale (agent.ts:442-443), so other keys are not left unchanged. -/
theorem rescan_clears_other_keys_concrete :
    mapGet stY0.lastCacheUpdate "testnet-60" = some 999990000 ∧
    (1000000000 : Int) - 999990000 < cfgX.ttlMs ∧
    mapGet (getLatestPools cfgX [] envW10 stY0 60 "mainnet" 3).st.lastCacheUpdate
      "testnet-60" = none := by decide

/-- C8 amended.  The cache maps are global rather than per key: a
miss-path (stale- or empty-triggered) call for one key replaces the
whole last-refresh map with the single entry for that key, so every
other key's refresh entry is removed and its state reverts to Empty. -/
theorem rescan_resets_all_keys
    (cfg : Config) (table : List (String × String)) (env : ScanEnv)
    (st : AgentState) (minutes : Int) (network : String) (fuel : Nat)
    (res : List Pool) (st1 : AgentState) (tal : Tally)
    (h : getLatestPools cfg table env st minutes network fuel = ⟨some res, st1, tal⟩)
    (hmiss : cacheHit cfg st env.nowMs (cacheKey network minutes) = false) :
    st1.lastCacheUpdate = [(cacheKey network minutes, env.nowMs)] ∧
      ∀ key', key' ≠ cacheKey network minutes →
        mapGet st1.lastCacheUpdate key' = none := by
  unfold getLatestPools at h
  split at h
  · exact absurd h (by simp)
  · split at h
    · rename_i hc
      rw [hmiss] at hc
      simp at hc
    · injection h with h1 h2 h3
      subst h2
      refine ⟨rfl, fun key' hne => ?_⟩
      show mapGet (mapSet [] (cacheKey network minutes) env.nowMs) key' = none
      simp [mapGet, mapSet, Ne.symm hne]

/-- C8 witness: the concrete rescan leaves exactly the rescanned key in
the last-refresh map, and the instantiated other key resolves to none. -/
theorem rescan_resets_all_keys_witness :
    (getLatestPools cfgX [] envW10 stY0 60 "mainnet" 3).st.lastCacheUpdate =
      [(cacheKey "mainnet" 60, 1000000000)] ∧
    mapGet (getLatestPools cfgX [] envW10 stY0 60 "mainnet" 3).st.lastCacheUpdate
      "testnet-60" = none := by
  have h := rescan_resets_all_keys cfgX [] envW10 stY0 60 "mainnet" 3
    [] (getLatestPools cfgX [] envW10 stY0 60 "mainnet" 3).st ⟨1, 1, 0, 0⟩
    (by decide) (by decide)
  exact ⟨h.1, h.2 "testnet-60" (by decide)⟩

/-! ### C6: event extraction: positional mapping and malformed skip -/

/-- C6.  A log entry with at least 7 data fields yields a record under
the fixed positional mapping `[0]=token0, [1]=token1, [2]=fee,
[3]=tick_spacing, [4]=extension, [5]=initial_tick, [6]=sqrt_ratio`
(numeric fields decoded as integers, `sqrt_ratio` kept as the raw
string); an entry with fewer than 7 fields yields no record, leaves
state and tally untouched, and the per-event loop continues with the
remaining events. -/
theorem extractPoolEventData_field_mapping_and_skip
    (table : List (String × String)) (env : ScanEnv)
    (st st2 : AgentState) (tally tal2 : Tally)
    (ev1 ev2 : RawEvent) (bts1 bts2 : Option Int)
    (btsMap : List (Int × Int)) (rest : List RawEvent) (acc : List Pool)
    (h1 : 7 ≤ ev1.data.length) (h2 : ev2.data.length < 7) :
    ((extractPoolEventData table env st tally ev1 bts1).1.map Pool.token0 =
        some (orDefStr (ev1.data.getD 0 "") "0x") ∧
     (extractPoolEventData table env st tally ev1 bts1).1.map Pool.token1 =
        some (orDefStr (ev1.data.getD 1 "") "0x") ∧
     (extractPoolEventData table env st tally ev1 bts1).1.map Pool.fee =
        some (jsNumber (orDefStr (ev1.data.getD 2 "") "0")) ∧
     (extractPoolEventData table env st tally ev1 bts1).1.map Pool.tick_spacing =
        some (jsNumber (orDefStr (ev1.data.getD 3 "") "0")) ∧
     (extractPoolEventData table env st tally ev1 bts1).1.map Pool.extension =
        some (orDefStr (ev1.data.getD 4 "") "0x") ∧
     (extractPoolEventData table env st tally ev1 bts1).1.map Pool.initial_tick =
        some (jsNumber (orDefStr (ev1.data.getD 5 "") "0")) ∧
     (extractPoolEventData table env st tally ev1 bts1).1.map Pool.sqrt_ratio =
        some (orDefStr (ev1.data.getD 6 "") "0")) ∧
    extractPoolEventData table env st2 tal2 ev2 bts2 = (none, st2, tal2) ∧
    processEvents table env btsMap (ev2 :: rest) st2 tal2 acc =
      processEvents table env btsMap rest st2 tal2 acc := by
  have hlen : ¬ ev1.data.length < 7 := by omega
  have hx : extractPoolEventData table env st2 tal2 ev2 bts2 = (none, st2, tal2) := by
    unfold extractPoolEventData
    rw [if_pos h2]
  have hx2 : extractPoolEventData table env st2 tal2 ev2
      (mapGet btsMap ev2.block_number) = (none, st2, tal2) := by
    unfold extractPoolEventData
    rw [if_pos h2]
  refine ⟨?_, hx, ?_⟩
  · unfold extractPoolEventData
    rw [if_neg hlen]
    exact ⟨rfl, rfl, rfl, rfl, rfl, rfl, rfl⟩
  · simp only [processEvents, hx2]

/-- A well-formed 7-field fixture event. -/
def ev7 : RawEvent :=
  { data := ["0xa", "0xb", "0x5", "0x3c", "0x", "0x10", "0xffff"],
    block_number := 7, transaction_hash := "0xt7" }

/-- A malformed 2-field fixture event. -/
def evBad : RawEvent :=
  { data := ["0xa", "0xb"], block_number := 8, transaction_hash := "0xt8" }

/-- C6 witness: the 7-field fixture event maps positionally and the
2-field fixture event is skipped with the loop continuing. -/
theorem extractPoolEventData_field_mapping_and_skip_witness :
    ((extractPoolEventData [] envX1 stX0 Tally.zero ev7 (some 123)).1.map Pool.token0 =
        some (orDefStr (ev7.data.getD 0 "") "0x") ∧
     (extractPoolEventData [] envX1 stX0 Tally.zero ev7 (some 123)).1.map Pool.token1 =
        some (orDefStr (ev7.data.getD 1 "") "0x") ∧
     (extractPoolEventData [] envX1 stX0 Tally.zero ev7 (some 123)).1.map Pool.fee =
        some (jsNumber (orDefStr (ev7.data.getD 2 "") "0")) ∧
     (extractPoolEventData [] envX1 stX0 Tally.zero ev7 (some 123)).1.map Pool.tick_spacing =
        some (jsNumber (orDefStr (ev7.data.getD 3 "") "0")) ∧
     (extractPoolEventData [] envX1 stX0 Tally.zero ev7 (some 123)).1.map Pool.extension =
        some (orDefStr (ev7.data.getD 4 "") "0x") ∧
     (extractPoolEventData [] envX1 stX0 Tally.zero ev7 (some 123)).1.map Pool.initial_tick =
        some (jsNumber (orDefStr (ev7.data.getD 5 "") "0")) ∧
     (extractPoolEventData [] envX1 stX0 Tally.zero ev7 (some 123)).1.map Pool.sqrt_ratio =
        some (orDefStr (ev7.data.getD 6 "") "0")) ∧
    extractPoolEventData [] envX1 stX0 Tally.zero evBad none = (none, stX0, Tally.zero) ∧
    processEvents [] envX1 [] (evBad :: [ev7]) stX0 Tally.zero [] =
      processEvents [] envX1 [] [ev7] stX0 Tally.zero [] :=
  extractPoolEventData_field_mapping_and_skip [] envX1 stX0 stX0 Tally.zero Tally.zero
    ev7 evBad (some 123) none [] [ev7] [] (by decide) (by decide)

/-! ### C7: symbol resolver: static table, fallback, no retry -/

/-- Lookup after an insert at the same key succeeds with the inserted
value. -/
theorem mapGet_mapSet_self [DecidableEq α] (m : List (α × β)) (k : α) (v : β) :
    mapGet (mapSet m k v) k = some v := by
  induction m with
  | nil => simp [mapSet, mapGet]
  | cons hd tl ih =>
    obtain ⟨k', v'⟩ := hd
    by_cases h : k' = k
    · simp [mapSet, mapGet, h]
    · simp [mapSet, mapGet, h, ih]

/-- C7.  The symbol resolver is total (it always returns a string, by
construction); an address whose normalized form is in the static table
never triggers a contract call (whether or not it is already cached);
and when the dynamic path throws, the result is the truncated-address
placeholder (first 6 chars + "..." + last 4 chars), which is cached so
that a repeat call returns it without a further contract attempt. -/
theorem getTokenSymbol_static_and_fallback
    (table : List (String × String)) (csym : String → Option String)
    (cache : List (String × String)) (tally : Tally) (a1 a2 s1 : String)
    (hstatic : mapGet table (normalizeAddress a1) = some s1)
    (hc2 : mapGet cache a2 = none)
    (hs2 : mapGet table (normalizeAddress a2) = none)
    (hdyn : csym a2 = none) :
    (getTokenSymbol table csym cache tally a1).2.2 = tally ∧
    (getTokenSymbol table csym cache tally a2).1 = truncateAddr a2 ∧
    mapGet (getTokenSymbol table csym cache tally a2).2.1 a2 =
      some (truncateAddr a2) ∧
    (getTokenSymbol table csym (getTokenSymbol table csym cache tally a2).2.1
        (getTokenSymbol table csym cache tally a2).2.2 a2).1 = truncateAddr a2 ∧
    (getTokenSymbol table csym (getTokenSymbol table csym cache tally a2).2.1
        (getTokenSymbol table csym cache tally a2).2.2 a2).2.2 =
      (getTokenSymbol table csym cache tally a2).2.2 := by
  have hr : getTokenSymbol table csym cache tally a2 =
      (truncateAddr a2, mapSet cache a2 (truncateAddr a2),
       { tally with contractCall := tally.contractCall + 1 }) := by
    simp only [getTokenSymbol, hc2, hs2, hdyn]
  have hr2 : getTokenSymbol table csym (mapSet cache a2 (truncateAddr a2))
      { tally with contractCall := tally.contractCall + 1 } a2 =
      (truncateAddr a2, mapSet cache a2 (truncateAddr a2),
       { tally with contractCall := tally.contractCall + 1 }) := by
    simp only [getTokenSymbol, mapGet_mapSet_self]
  refine ⟨?_, by rw [hr], by rw [hr]; exact mapGet_mapSet_self _ _ _,
    by rw [hr]; rw [hr2], by rw [hr]; rw [hr2]⟩
  cases hc : mapGet cache a1 with
  | some s => simp [getTokenSymbol, hc]
  | none => simp [getTokenSymbol, hc, hstatic]

/-- Static table fixture holding the normalized form of `0xAA`. -/
def tableW : List (String × String) := [(normalizeAddress "0xAA", "ETH")]

/-- C7 witness: the static-table address `0xAA` resolves without a
contract attempt, and the failing address `0xdeadbeef1234` degrades to
the cached placeholder `0xdead...1234` with no retry. -/
theorem getTokenSymbol_static_and_fallback_witness :
    (getTokenSymbol tableW (fun _ => none) [] Tally.zero "0xAA").2.2 = Tally.zero ∧
    (getTokenSymbol tableW (fun _ => none) [] Tally.zero "0xdeadbeef1234").1 =
      truncateAddr "0xdeadbeef1234" ∧
    mapGet (getTokenSymbol tableW (fun _ => none) [] Tally.zero "0xdeadbeef1234").2.1
      "0xdeadbeef1234" = some (truncateAddr "0xdeadbeef1234") ∧
    (getTokenSymbol tableW (fun _ => none)
        (getTokenSymbol tableW (fun _ => none) [] Tally.zero "0xdeadbeef1234").2.1
        (getTokenSymbol tableW (fun _ => none) [] Tally.zero "0xdeadbeef1234").2.2
        "0xdeadbeef1234").1 = truncateAddr "0xdeadbeef1234" ∧
    (getTokenSymbol tableW (fun _ => none)
        (getTokenSymbol tableW (fun _ => none) [] Tally.zero "0xdeadbeef1234").2.1
        (getTokenSymbol tableW (fun _ => none) [] Tally.zero "0xdeadbeef1234").2.2
        "0xdeadbeef1234").2.2 =
      (getTokenSymbol tableW (fun _ => none) [] Tally.zero "0xdeadbeef1234").2.2 :=
  getTokenSymbol_static_and_fallback tableW (fun _ => none) [] Tally.zero
    "0xAA" "0xdeadbeef1234" "ETH" (by decide) (by decide) (by decide) (by decide)

/-! ### C9: the hours entrypoint -/

/-- The integer-division ceiling model agrees with the mathematical
ceiling of the represented decimal value. -/
theorem ceilDec_eq_ceil (d : Dec) : ceilDec d = ⌈Dec.toRat d⌉ := by
  unfold ceilDec Dec.toRat
  have h1 : -((d.num : ℚ) / ((10 ^ d.pow : ℕ) : ℚ)) =
      (((-d.num : ℤ) : ℚ) / ((10 ^ d.pow : ℕ) : ℚ)) := by
    push_cast
    ring
  have h2 : ⌊-((d.num : ℚ) / ((10 ^ d.pow : ℕ) : ℚ))⌋ =
      (-d.num) / ((10 ^ d.pow : ℕ) : ℤ) := by
    rw [h1, Rat.floor_intCast_div_natCast]
  rw [← neg_neg (⌈_⌉), ← Int.floor_neg, h2]

/-- The dyadic ceiling model agrees with the mathematical ceiling of
the represented double value. -/
theorem ceilDyadic_eq_ceil (x : Dyadic) : ceilDyadic x = ⌈Dyadic.toRat x⌉ := by
  unfold ceilDyadic Dyadic.toRat
  by_cases h : 0 ≤ x.exp
  · rw [if_pos h, if_pos h]
    exact (Int.ceil_intCast _).symm
  · simp only [h, if_false]
    have h1 : -((x.man : ℚ) / ((2 ^ (-x.exp).toNat : ℕ) : ℚ)) =
        (((-x.man : ℤ) : ℚ) / ((2 ^ (-x.exp).toNat : ℕ) : ℚ)) := by
      push_cast
      ring
    have h2 : ⌊-((x.man : ℚ) / ((2 ^ (-x.exp).toNat : ℕ) : ℚ))⌋ =
        (-x.man) / ((2 ^ (-x.exp).toNat : ℕ) : ℤ) := by
      rw [h1, Rat.floor_intCast_div_natCast]
    rw [← neg_neg (⌈_⌉), ← Int.floor_neg, h2]
    push_cast
    ring_nf

set_option maxRecDepth 8000 in
/-- C9 counterexample: the schema check is on string *length* (1 to 24
characters), so the four-character string "0.01" is accepted although
its value 0.01 lies outside the claimed range `[0.1, 24]`; the handler
then derives minutes Math.ceil(0.01 * 60) = 1 in double arithmetic and
invokes the orchestrator. -/
theorem hours_schema_accepts_out_of_range_value :
    hoursSchemaOk "0.01" = true ∧
    parseFloatDec "0.01" = some ⟨1, 2⟩ ∧
    Dec.toRat ⟨1, 2⟩ < 1 / 10 ∧
    listPoolsByHours cfgX [] envX1 stX0 9 "0.01" "mainnet" =
      some (⟨1, 2⟩, 1, getLatestPools cfgX [] envX1 stX0 1 "mainnet" 9) := by
  refine ⟨by decide, by decide, ?_, by decide⟩
  norm_num [Dec.toRat]

set_option maxRecDepth 8000 in
/-- At the schema-passing input 1.1666666666666667 the shipped binary64
computation and the exact-decimal reading diverge: the nearest double
to the literal, times 60, rounds to exactly 70.0 (minutes 70), while
the exact ceiling of the decimal value times 60 is 71 (`ceilDec` is the
exact ceiling by `ceilDec_eq_ceil`). -/
theorem double_vs_exact_ceiling_diverge :
    jsHoursMinutes ⟨11666666666666667, 16⟩ = 70 ∧
    ceilDec ⟨11666666666666667 * 60, 16⟩ = 71 := by decide

/-- C9 amended.  The entrypoint validates only that the hours string has
length in `[1, 24]` characters; for every accepted hours string that
parses to a finite decimal `d`, the handler computes `minutes =
Math.ceil(parseFloat(hours) * 60)` in IEEE binary64 arithmetic — the
ceiling of the correctly rounded double product, which can differ from
the exact-decimal `ceil(d * 60)` — passes that minutes value to the
shared `getLatestPools` orchestrator, and reports both the parsed hours
and the derived minutes in the returned timeframe. -/
theorem hours_handler_passes_ceiled_minutes
    (cfg : Config) (table : List (String × String)) (env : ScanEnv)
    (st : AgentState) (fuel : Nat) (hoursStr network : String) (d : Dec)
    (hschema : hoursSchemaOk hoursStr = true)
    (hparse : parseFloatDec hoursStr = some d) :
    listPoolsByHours cfg table env st fuel hoursStr network =
      some (d, ⌈Dyadic.toRat (doubleMul60 (decToDouble d))⌉,
        getLatestPools cfg table env st
          ⌈Dyadic.toRat (doubleMul60 (decToDouble d))⌉ network fuel) := by
  have hc : jsHoursMinutes d = ⌈Dyadic.toRat (doubleMul60 (decToDouble d))⌉ :=
    ceilDyadic_eq_ceil _
  simp only [listPoolsByHours, hschema, hparse, if_true]
  rw [hc]

/-- C9 witness: the in-range hours string "2.5" parses to the exact
decimal 25/10, whose double product with 60 is exactly 150.0; minutes
150 is forwarded to the orchestrator. -/
theorem hours_handler_passes_ceiled_minutes_witness :
    listPoolsByHours cfgX [] envX1 stX0 3 "2.5" "mainnet" =
      some (⟨25, 1⟩, ⌈Dyadic.toRat (doubleMul60 (decToDouble ⟨25, 1⟩))⌉,
        getLatestPools cfgX [] envX1 stX0
          ⌈Dyadic.toRat (doubleMul60 (decToDouble ⟨25, 1⟩))⌉ "mainnet" 3) :=
  hours_handler_passes_ceiled_minutes cfgX [] envX1 stX0 3 "2.5" "mainnet"
    ⟨25, 1⟩ (by decide) (by decide)

/-! ### Scan-loop lemmas shared by C2 and C5 -/

/-- The scan loop is inert on a stopped state. -/
theorem scanLoop_of_stopped (cfg : Config) (table : List (String × String))
    (env : ScanEnv) (cutoff : Int) :
    ∀ (n : Nat) (s : ScanState), s.stopped = true →
      scanLoop cfg table env cutoff n s = s
  | 0, _, _ => rfl
  | n + 1, s, h => by simp [scanLoop, h]

/-- Fuel composition for the scan loop. -/
theorem scanLoop_add (cfg : Config) (table : List (String × String))
    (env : ScanEnv) (cutoff : Int) (a b : Nat) (s : ScanState) :
    scanLoop cfg table env cutoff (a + b) s =
      scanLoop cfg table env cutoff b (scanLoop cfg table env cutoff a s) := by
  induction a generalizing s with
  | zero => simp [scanLoop]
  | succ n ih =>
    by_cases h : s.stopped = true
    · rw [scanLoop_of_stopped cfg table env cutoff (n + 1 + b) s h,
        scanLoop_of_stopped cfg table env cutoff (n + 1) s h,
        scanLoop_of_stopped cfg table env cutoff b s h]
    · have hs : s.stopped = false := by simpa using h
      have e1 : scanLoop cfg table env cutoff (n + 1 + b) s =
          scanLoop cfg table env cutoff (n + b)
            (scanStep cfg table env cutoff s) := by
        have hn : n + 1 + b = (n + b) + 1 := by omega
        rw [hn]
        simp [scanLoop, hs]
      have e2 : scanLoop cfg table env cutoff (n + 1) s =
          scanLoop cfg table env cutoff n (scanStep cfg table env cutoff s) := by
        simp [scanLoop, hs]
      rw [e1, e2, ih]

/-- A scan step whose boundary timestamp does not resolve strictly
below the cutoff (including the fetch-failure case) fetches the
window's events and advances backward. -/
theorem scanStep_advance (cfg : Config) (table : List (String × String))
    (env : ScanEnv) (cutoff : Int) (s : ScanState)
    (hno : ∀ t, env.getBlockTs s.toBlock = some t → ¬ t < cutoff) :
    scanStep cfg table env cutoff s =
      { fromBlock := max 0 (s.fromBlock - cfg.chunkSize)
        toBlock := s.fromBlock - 1
        pools := s.pools ++ (fetchPoolInitializedEvents table env s.st
          { s.tally with getBlock := s.tally.getBlock + 1 } s.fromBlock s.toBlock).1
        fetched := s.fetched ++ [(s.fromBlock, s.toBlock)]
        st := (fetchPoolInitializedEvents table env s.st
          { s.tally with getBlock := s.tally.getBlock + 1 } s.fromBlock s.toBlock).2.1
        tally := (fetchPoolInitializedEvents table env s.st
          { s.tally with getBlock := s.tally.getBlock + 1 } s.fromBlock s.toBlock).2.2
        stopped := decide (max 0 (s.fromBlock - cfg.chunkSize) = 0 ∧
          s.fromBlock - 1 = 0)
        cutoffStop := s.cutoffStop } := by
  unfold scanStep
  cases he : env.getBlockTs s.toBlock with
  | none => rfl
  | some t =>
    have hd : decide (t < cutoff) = false := decide_eq_false (hno t he)
    simp only [hd, Bool.false_eq_true, if_false]

/-- A scan step whose boundary timestamp resolves strictly below the
cutoff stops the loop without fetching the window's events. -/
theorem scanStep_stop (cfg : Config) (table : List (String × String))
    (env : ScanEnv) (cutoff : Int) (s : ScanState) (t : Int)
    (he : env.getBlockTs s.toBlock = some t) (hlt : t < cutoff) :
    scanStep cfg table env cutoff s =
      { s with tally := { s.tally with getBlock := s.tally.getBlock + 1 }
               stopped := true
               cutoffStop := true } := by
  unfold scanStep
  simp only [he, decide_eq_true hlt, if_true]

/-- Trace characterization: as long as no younger window's boundary
timestamp resolved below the cutoff and the genesis check did not fire,
iteration `j` of the loop sits exactly at window `j` with windows
`0..j-1` fetched and the loop still running. -/
theorem scanLoop_trace (cfg : Config) (table : List (String × String))
    (env : ScanEnv) (cutoff : Int) (st0 : AgentState) (k : Nat)
    (hbefore : ∀ j, j < k → ∀ t,
      env.getBlockTs (winTo cfg.chunkSize env.headBlock j) = some t →
        ¬ t < cutoff)
    (hgen : ∀ j, j < k →
      ¬(winFrom cfg.chunkSize env.headBlock (j + 1) = 0 ∧
        winTo cfg.chunkSize env.headBlock (j + 1) = 0)) :
    ∀ j, j ≤ k → ∃ P S T,
      scanLoop cfg table env cutoff j (initScanState cfg env st0) =
        { fromBlock := winFrom cfg.chunkSize env.headBlock j
          toBlock := winTo cfg.chunkSize env.headBlock j
          pools := P
          fetched := (List.range j).map
            (fun i => (winFrom cfg.chunkSize env.headBlock i,
                       winTo cfg.chunkSize env.headBlock i))
          st := S
          tally := T
          stopped := false
          cutoffStop := false } := by
  intro j
  induction j with
  | zero =>
    intro _
    exact ⟨[], st0, { Tally.zero with headBlock := 1 }, rfl⟩
  | succ n ih =>
    intro hn
    obtain ⟨P, S, T, heq⟩ := ih (by omega)
    have hone : scanLoop cfg table env cutoff (n + 1) (initScanState cfg env st0) =
        scanStep cfg table env cutoff
          (scanLoop cfg table env cutoff n (initScanState cfg env st0)) := by
      rw [scanLoop_add cfg table env cutoff n 1, heq]
      simp [scanLoop]
    rw [heq] at hone
    rw [hone, scanStep_advance cfg table env cutoff _
      (by intro t ht; exact hbefore n (by omega) t ht)]
    refine ⟨P ++ (fetchPoolInitializedEvents table env S
        { T with getBlock := T.getBlock + 1 }
        (winFrom cfg.chunkSize env.headBlock n)
        (winTo cfg.chunkSize env.headBlock n)).1,
      (fetchPoolInitializedEvents table env S
        { T with getBlock := T.getBlock + 1 }
        (winFrom cfg.chunkSize env.headBlock n)
        (winTo cfg.chunkSize env.headBlock n)).2.1,
      (fetchPoolInitializedEvents table env S
        { T with getBlock := T.getBlock + 1 }
        (winFrom cfg.chunkSize env.headBlock n)
        (winTo cfg.chunkSize env.headBlock n)).2.2, ?_⟩
    exact (ScanState.mk.injEq _ _ _ _ _ _ _ _ _ _ _ _ _ _ _ _).mpr
      ⟨rfl, rfl, rfl, by rw [List.range_succ, List.map_append]; rfl, rfl, rfl,
       by
         have hg := hgen n (by omega)
         simp only [winFrom, winTo] at hg
         exact decide_eq_false hg,
       rfl⟩

/-! ### The intended chunked walk, under the counterfactual integer chunk size -/

/-- Intended stop-at-first-stale-boundary behavior of the loop, which
the shipped program cannot realize because its chunk size is undefined
(see the shipped-scan theorems below): if window `k` is the first whose
`to`-boundary timestamp is observed strictly below the cutoff (younger
windows either resolved at or above the cutoff or failed to resolve,
and the genesis check did not fire), then the scan fetches the events
of exactly the windows `0..k-1`, does not fetch window `k`, and stops
through the cutoff break — a fetch failure never causes an early stop
and a cutoff strictly inside a chunk does not stop the scan one chunk
too soon. -/
theorem scanLoop_stops_at_first_stale_boundary
    (cfg : Config) (table : List (String × String)) (env : ScanEnv)
    (cutoff : Int) (st0 : AgentState) (k fuel : Nat) (t : Int)
    (hstop : env.getBlockTs (winTo cfg.chunkSize env.headBlock k) = some t)
    (hlt : t < cutoff)
    (hbefore : ∀ j, j < k → ∀ u,
      env.getBlockTs (winTo cfg.chunkSize env.headBlock j) = some u →
        ¬ u < cutoff)
    (hgen : ∀ j, j < k →
      ¬(winFrom cfg.chunkSize env.headBlock (j + 1) = 0 ∧
        winTo cfg.chunkSize env.headBlock (j + 1) = 0))
    (hfuel : k + 1 ≤ fuel) :
    (scanLoop cfg table env cutoff fuel (initScanState cfg env st0)).fetched =
      (List.range k).map (fun i => (winFrom cfg.chunkSize env.headBlock i,
        winTo cfg.chunkSize env.headBlock i)) ∧
    (scanLoop cfg table env cutoff fuel
      (initScanState cfg env st0)).cutoffStop = true := by
  obtain ⟨P, S, T, heq⟩ :=
    scanLoop_trace cfg table env cutoff st0 k hbefore hgen k le_rfl
  have hsplit : fuel = k + ((fuel - k - 1) + 1) := by omega
  rw [hsplit, scanLoop_add cfg table env cutoff k ((fuel - k - 1) + 1), heq]
  have hone : scanLoop cfg table env cutoff ((fuel - k - 1) + 1)
      ({ fromBlock := winFrom cfg.chunkSize env.headBlock k
         toBlock := winTo cfg.chunkSize env.headBlock k
         pools := P
         fetched := (List.range k).map
           (fun i => (winFrom cfg.chunkSize env.headBlock i,
                      winTo cfg.chunkSize env.headBlock i))
         st := S
         tally := T
         stopped := false
         cutoffStop := false } : ScanState) =
      scanLoop cfg table env cutoff (fuel - k - 1)
        (scanStep cfg table env cutoff
          { fromBlock := winFrom cfg.chunkSize env.headBlock k
            toBlock := winTo cfg.chunkSize env.headBlock k
            pools := P
            fetched := (List.range k).map
              (fun i => (winFrom cfg.chunkSize env.headBlock i,
                         winTo cfg.chunkSize env.headBlock i))
            st := S
            tally := T
            stopped := false
            cutoffStop := false }) := by
    simp [scanLoop]
  rw [hone, scanStep_stop cfg table env cutoff _ t hstop hlt,
    scanLoop_of_stopped cfg table env cutoff (fuel - k - 1) _ rfl]
  exact ⟨rfl, rfl⟩

/-- Environment realizing the spec's worked example: head block 100000,
block timestamps linear in the block number, cutoff 99500 strictly
inside the head chunk. -/
def envW2 : ScanEnv :=
  { nowMs := 0
    headBlock := 100000
    getBlockTs := fun b => some b
    getEvents := fun _ _ => some []
    contractSymbol := fun _ => none }

/-- Configuration with the counterfactual integer chunk size 1000. -/
def cfgW2 : Config := { ttlMs := 60000, chunkSize := 1000, maxLookbackMinutes := 1440 }

/-- Concrete instance of the intended walk at the spec's worked example:
with cutoff 99500 inside the chunk [99000, 100000], the loop under
chunk size 1000 fetches exactly that window — not zero — and stops
through the cutoff break at the next boundary 98999. -/
theorem scanLoop_stops_at_first_stale_boundary_witness :
    (scanLoop cfgW2 [] envW2 99500 5 (initScanState cfgW2 envW2 emptyState)).fetched =
      [(99000, 100000)] ∧
    (scanLoop cfgW2 [] envW2 99500 5
      (initScanState cfgW2 envW2 emptyState)).cutoffStop = true := by
  have h := scanLoop_stops_at_first_stale_boundary cfgW2 [] envW2 99500 emptyState
    1 5 98999 (by decide) (by decide)
    (by
      intro j hj u hu
      have hj0 : j = 0 := by omega
      subst hj0
      have : u = 100000 := by
        have := hu
        simp [envW2, winTo] at this
        omega
      omega)
    (by
      intro j hj
      have hj0 : j = 0 := by omega
      subst hj0
      intro hcon
      exact absurd hcon.1 (by decide))
    (by omega)
  refine ⟨h.1.trans (by decide), h.2⟩

/-! ### C2: the shipped scan, with the real undefined chunk size -/

/-- The chunk-size value the shipped program actually reads at
agent.ts:353: `config.network.blockChunkSize` does not exist in
src/config.ts, so the value is `undefined`; `none` models
undefined — and the NaN it produces under arithmetic — throughout the
shipped-scan definitions. -/
def shippedChunkSize : Option Int := none

/-- NaN-propagating JS subtraction on block numbers: `none` (NaN or
undefined) as either operand makes the result NaN. -/
def jsSub (a b : Option Int) : Option Int :=
  match a, b with
  | some x, some y => some (x - y)
  | _, _ => none

/-- JS `Math.max(0, x)`: NaN propagates (`Math.max(0, NaN)` is NaN). -/
def jsMax0 : Option Int → Option Int
  | some x => some (max 0 x)
  | none => none

/-- State of the shipped backward-scan loop: the block coordinates are
JS numbers that can be NaN. -/
structure ScanStateJs where
  fromBlock : Option Int
  toBlock : Option Int
  pools : List Pool
  st : AgentState
  tally : Tally
  stopped : Bool
  cutoffStop : Bool
deriving Repr

/-- Boundary-timestamp fetch of the shipped loop: `provider.getBlock`
on a NaN block number fails, which the catch at agent.ts:388-392 turns
into continue. -/
def getBlockTsJs (env : ScanEnv) : Option Int → Option Int
  | some n => env.getBlockTs n
  | none => none

/-- Event fetch of the shipped loop: a `getEvents` request whose block
range contains NaN fails, which the catch at agent.ts:294-297 turns
into zero records; the attempted call is still tallied. -/
def fetchPoolInitializedEventsJs (table : List (String × String))
    (env : ScanEnv) (st : AgentState) (tally : Tally) (f t : Option Int) :
    List Pool × AgentState × Tally :=
  match f, t with
  | some a, some b => fetchPoolInitializedEvents table env st tally a b
  | _, _ => ([], st, { tally with getEvents := tally.getEvents + 1 })

/-- One iteration of the shipped `while (true)` loop (agent.ts:377-414):
identical to `scanStep` except that the window arithmetic is the
NaN-propagating JS arithmetic with the real `undefined` chunk size. -/
def scanStepJs (table : List (String × String)) (env : ScanEnv)
    (cutoff : Int) (s : ScanStateJs) : ScanStateJs :=
  let tally1 := { s.tally with getBlock := s.tally.getBlock + 1 }
  let stopNow : Bool :=
    match getBlockTsJs env s.toBlock with
    | some t => decide (t < cutoff)
    | none => false
  if stopNow then { s with tally := tally1, stopped := true, cutoffStop := true }
  else
    let r := fetchPoolInitializedEventsJs table env s.st tally1 s.fromBlock s.toBlock
    let toBlock' := jsSub s.fromBlock (some 1)
    let fromBlock' := jsMax0 (jsSub s.fromBlock shippedChunkSize)
    { fromBlock := fromBlock'
      toBlock := toBlock'
      pools := s.pools ++ r.1
      st := r.2.1
      tally := r.2.2
      stopped := fromBlock' == some 0 && toBlock' == some 0
      cutoffStop := s.cutoffStop }

/-- Fuel-bounded unfolding of the shipped loop. -/
def scanLoopJs (table : List (String × String)) (env : ScanEnv)
    (cutoff : Int) : Nat → ScanStateJs → ScanStateJs
  | 0, s => s
  | n + 1, s =>
    if s.stopped then s
    else scanLoopJs table env cutoff n (scanStepJs table env cutoff s)

/-- Initial shipped-loop state (agent.ts:370-371): `fromBlock =
Math.max(0, head - undefined)` is NaN before the first iteration. -/
def initScanStateJs (env : ScanEnv) (st : AgentState) : ScanStateJs :=
  { fromBlock := jsMax0 (jsSub (some env.headBlock) shippedChunkSize)
    toBlock := some env.headBlock
    pools := []
    st := st
    tally := { Tally.zero with headBlock := 1 }
    stopped := false
    cutoffStop := false }

/-- Environment realizing the spec's worked example as the C2 failing
input: head block 100000, timestamps linear in the block number, cutoff
99500 inside the head chunk, and a real pool event available in the
window [99000, 100000] that the claimed walk would fetch. -/
def envC2 : ScanEnv :=
  { nowMs := 0
    headBlock := 100000
    getBlockTs := fun b => some b
    getEvents := fun f t => if f = 99000 ∧ t = 100000 then some [evX] else some []
    contractSymbol := fun _ => none }

/-- On the C2 failing input, one shipped-loop step from a running state
with NaN `fromBlock`, an empty accumulator and `toBlock` either the
head or NaN produces again such a state: the event fetch fails (NaN in
the range), the advance keeps both coordinates NaN, and neither stop
condition can fire. -/
theorem scanStepJs_c2_keeps_running (s : ScanStateJs)
    (hfrom : s.fromBlock = none) (hpools : s.pools = [])
    (hto : s.toBlock = some 100000 ∨ s.toBlock = none) :
    (scanStepJs [] envC2 99500 s).stopped = false ∧
    (scanStepJs [] envC2 99500 s).fromBlock = none ∧
    (scanStepJs [] envC2 99500 s).pools = [] ∧
    ((scanStepJs [] envC2 99500 s).toBlock = some 100000 ∨
      (scanStepJs [] envC2 99500 s).toBlock = none) := by
  rcases hto with h | h <;>
    simp [scanStepJs, getBlockTsJs, envC2, fetchPoolInitializedEventsJs,
      jsSub, jsMax0, shippedChunkSize, h, hfrom, hpools]

/-- On the C2 failing input, the no-stop, no-records invariant of the
shipped loop persists through any amount of fuel. -/
theorem scanLoopJs_c2_never_stops :
    ∀ (n : Nat) (s : ScanStateJs), s.stopped = false → s.fromBlock = none →
      s.pools = [] → (s.toBlock = some 100000 ∨ s.toBlock = none) →
      (scanLoopJs [] envC2 99500 n s).stopped = false ∧
      (scanLoopJs [] envC2 99500 n s).pools = [] := by
  intro n
  induction n with
  | zero => intro s h _ hp _; exact ⟨h, hp⟩
  | succ m ih =>
    intro s h hf hp hto
    have hstep := scanStepJs_c2_keeps_running s hf hp hto
    simp only [scanLoopJs, h, Bool.false_eq_true, if_false]
    exact ih _ hstep.1 hstep.2.1 hstep.2.2.1 hstep.2.2.2

/-- C2.  In the shipped program the claimed chunked walk never happens:
`config.network.blockChunkSize` (agent.ts:353) does not exist in
src/config.ts, so `fromBlock = Math.max(0, head - undefined)` is NaN
before the first iteration.  On the spec's own worked example — head
block 100000, linear timestamps, cutoff 99500, and a pool event
available in [99000, 100000] (first conjunct) — the shipped scan
accumulates zero records (the head window's event fetch `[NaN, 100000]`
fails) and never stops, for any amount of fuel: after the advance
`toBlock` is NaN, every boundary fetch fails and is treated as in
range, and the genesis check `NaN === 0` never fires.  The claimed
stop-at-first-stale-boundary behavior is the documented intent, proved
under a counterfactual integer chunk size by the intended-walk lemmas
above. -/
theorem shipped_scan_fetches_nothing_and_never_stops (fuel : Nat) :
    envC2.getEvents 99000 100000 = some [evX] ∧
    (scanLoopJs [] envC2 99500 fuel (initScanStateJs envC2 emptyState)).stopped
      = false ∧
    (scanLoopJs [] envC2 99500 fuel (initScanStateJs envC2 emptyState)).pools
      = [] := by
  refine ⟨by decide, ?_, ?_⟩
  · exact (scanLoopJs_c2_never_stops fuel (initScanStateJs envC2 emptyState)
      rfl (by decide) rfl (Or.inl rfl)).1
  · exact (scanLoopJs_c2_never_stops fuel (initScanStateJs envC2 emptyState)
      rfl (by decide) rfl (Or.inl rfl)).2

/-! ### C5: the genesis termination check is unreachable -/

/-- Configuration for the C5 failing input: chunk size 1000. -/
def cfg5 : Config := { ttlMs := 60000, chunkSize := 1000, maxLookbackMinutes := 1440 }

/-- Environment for the C5 failing input: head block 5 and every
`provider.getBlock` call failing, so the step-(b) cutoff break never
fires. -/
def env5 : ScanEnv :=
  { nowMs := 1000000000
    headBlock := 5
    getBlockTs := fun _ => none
    getEvents := fun _ _ => some []
    contractSymbol := fun _ => none }

/-- On the C5 input, a step from a running state with `fromBlock = 0`
yields again a running state with `fromBlock = 0`: the advance rule sets
`toBlock = -1`, so `fromBlock == 0 && toBlock == 0` never holds. -/
theorem scanStep5_keeps_running (cut : Int) (s : ScanState)
    (hfrom : s.fromBlock = 0) :
    (scanStep cfg5 [] env5 cut s).stopped = false ∧
    (scanStep cfg5 [] env5 cut s).fromBlock = 0 := by
  unfold scanStep
  simp only [env5, hfrom]
  constructor
  · simp [cfg5]
  · simp [cfg5]

/-- On the C5 input, the loop invariant `stopped = false ∧ fromBlock =
0` persists through any amount of fuel. -/
theorem scanLoop5_never_stops (cut : Int) :
    ∀ (n : Nat) (s : ScanState), s.stopped = false → s.fromBlock = 0 →
      (scanLoop cfg5 [] env5 cut n s).stopped = false ∧
      (scanLoop cfg5 [] env5 cut n s).fromBlock = 0 := by
  intro n
  induction n with
  | zero => intro s h hf; exact ⟨h, hf⟩
  | succ m ih =>
    intro s h hf
    have hstep := scanStep5_keeps_running cut s hf
    simp only [scanLoop, h, Bool.false_eq_true, if_false]
    exact ih _ hstep.1 hstep.2

/-- C5.  With head block 5, chunk size 1000 and every boundary
timestamp fetch failing, the backward scan never terminates: the loop's
exit flag stays false for every amount of fuel, because after the first
advance the state is `fromBlock = 0, toBlock = -1` and the genesis check
`fromBlock == 0 && toBlock == 0` (agent.ts:408) can never fire — the
code's own comment says the loop should stop at the beginning of the
chain. -/
theorem scan_never_terminates_when_boundary_fetches_fail (fuel : Nat) :
    (scanLoop cfg5 [] env5 (cutoffOf env5 60) fuel
      (initScanState cfg5 env5 emptyState)).stopped = false :=
  (scanLoop5_never_stops (cutoffOf env5 60) fuel
    (initScanState cfg5 env5 emptyState) rfl (by decide)).1

end EkuboWatcher
